import Mathlib

/-!
Verification of the RSS feed reader pipeline (`streamlit_app.py`).

The embedding models the article-extraction pipeline: HTML reduction
(`clean_html`), article fetching (`fetch_full_article`), feed parsing
(`fetch_rss_feed`), collection (`collect_articles`), batch processing
(`process_persona_file`) and the spreadsheet serializer (`save_to_excel`).
Network and the HTML/feed parsers are abstracted as explicit environment
functions and already-parsed trees; Python dicts are association lists
preserving insertion order; exceptions become `Except`.
-/

set_option autoImplicit false

namespace RssReader

/-- A parsed HTML node, as produced by BeautifulSoup: either a text node or
an element with a tag name, attributes and children. -/
inductive Html where
  | text : String → Html
  | elem : String → List (String × String) → List Html → Html

/-- A parsed HTML document: the top-level sequence of nodes. -/
abbrev Doc := List Html

mutual

/-- `Tag.get_text()`: the concatenation of all descendant text nodes. -/
def getText : Html → String
  | .text s => s
  | .elem _ _ cs => getTextList cs

def getTextList : List Html → String
  | [] => ""
  | c :: cs => getText c ++ getTextList cs

end

mutual

/-- The `decompose()` loop of `clean_html`: removes every `script` and
`style` subtree from a node's descendants. -/
def stripSS : Html → Html
  | .text s => .text s
  | .elem t a cs => .elem t a (stripSSList cs)

def stripSSList : List Html → List Html
  | [] => []
  | .text s :: cs => .text s :: stripSSList cs
  | .elem t a gs :: cs =>
    if t = "script" || t = "style" then stripSSList cs
    else .elem t a (stripSSList gs) :: stripSSList cs

end

mutual

/-- `soup.find_all(tag)`: all elements with the given tag name, in document
(preorder) order, recursing into matches. -/
def findAllTag (tag : String) : Html → List Html
  | .text _ => []
  | .elem t a cs =>
    (if t = tag then [Html.elem t a cs] else []) ++ findAllTagList tag cs

def findAllTagList (tag : String) : List Html → List Html
  | [] => []
  | c :: cs => findAllTag tag c ++ findAllTagList tag cs

end

/-- `clean_html`: parse (already done), decompose `script`/`style`
elements, then join the text of every `<p>` element with a blank line. -/
def clean_html (doc : Doc) : String :=
  let cleaned := stripSSList doc
  let paragraphs := findAllTagList "p" cleaned
  String.intercalate "\n\n" (paragraphs.map getText)

/-- The attributes of an element, looked up by name (`tag[attr]` minus the
KeyError, which call sites handle). -/
def attrOf (h : Html) (key : String) : Option String :=
  match h with
  | .text _ => none
  | .elem _ attrs _ => attrs.lookup key

/-! ## HTTP and the article fetcher -/

/-- The outcome of `requests.get`: a transport-level exception, or a
response with a final status code and a parsed HTML body. Redirect
following happens inside the transport, so the status is the final one. -/
inductive HttpResult where
  | err : String → HttpResult
  | ok : Nat → Doc → HttpResult

/-- A network environment: what GET returns for each URL. -/
abbrev Web := String → HttpResult

/-- The sentinel prefix used by the article fetcher. -/
def fetchErrPrefix : String := "Error fetching article content:"

def fetchErrMsg (detail : String) : String := fetchErrPrefix ++ " " ++ detail

/-- Rendering of the `HTTPError` raised by `response.raise_for_status()`
(abstracts the exact requests message text). -/
def statusErrMsg (status : Nat) (link : String) : String :=
  toString status ++ " Error for url: " ++ link

/-- Rendering of the `KeyError` raised by `image_tag[..]` when the first
image has no `src` attribute. -/
def keyErrSrc : String := "KeyError: src"

/-- `raise_for_status` raises exactly for 4xx and 5xx status codes. -/
def raisesForStatus (status : Nat) : Bool := 400 ≤ status && status < 600

/-- `fetch_full_article`: GET the link, raise for 4xx/5xx, reduce the body
with `clean_html`, and take the `src` of the first `img` element. Every
exception is caught and encoded as the sentinel pair. -/
def fetch_full_article (web : Web) (link : String) : String × String :=
  match web link with
  | .err e => (fetchErrMsg e, "")
  | .ok status doc =>
    if raisesForStatus status then (fetchErrMsg (statusErrMsg status link), "")
    else
      let full_text := clean_html doc
      match (findAllTagList "img" doc).head? with
      | none => (full_text, "")
      | some img =>
        match attrOf img "src" with
        | some src => (full_text, src)
        | none => (fetchErrMsg keyErrSrc, "")

/-! ## Feed parsing -/

/-- A raw feed entry as `feedparser` exposes it: each field is present or
absent. The last three fields model feed-level image carriers
(media-content, enclosure, explicit image) that a feed may carry. -/
structure RawEntry where
  title : Option String
  link : Option String
  summary : Option String
  published : Option String
  media_content : Option String
  enclosure : Option String
  image : Option String

/-- The outcome of `feedparser.parse`: a list of entries, or an exception. -/
abbrev ParseResult := Except String (List RawEntry)

/-- A feed environment: what parsing returns for each URL. -/
abbrev Feeds := String → ParseResult

/-- A Python dict with string keys and values, as an insertion-ordered
association list. -/
abbrev Dict := List (String × String)

/-- The entry dict built in the loop body of `fetch_rss_feed`. -/
def normalizeEntry (e : RawEntry) : Dict :=
  [("title", e.title.getD "No title available"),
   ("link", e.link.getD ""),
   ("summary", e.summary.getD "No summary available"),
   ("published", e.published.getD "")]

def parseErrMsg (url detail : String) : String :=
  "Error parsing RSS feed from " ++ url ++ ": " ++ detail

/-- `fetch_rss_feed(url, num_articles)`: parse the feed and normalize the
first `num_articles` entries; on any exception report a diagnostic and
return the empty list. Returns (articles, diagnostics). -/
def fetch_rss_feed (parse : Feeds) (url : String) (num_articles : Nat) :
    List Dict × List String :=
  match parse url with
  | .ok entries => ((entries.take num_articles).map normalizeEntry, [])
  | .error e => ([], [parseErrMsg url e])

/-! ## Collection -/

/-- The guard `if 'link' in article and article['link']`. -/
def hasLink (a : Dict) : Bool :=
  match a.lookup "link" with
  | some l => l != ""
  | none => false

/-- The ArticleRecord dict built in the loop body of `collect_articles`;
`now` is the formatted `datetime.now()`. -/
def mkRecord (web : Web) (now : String) (a : Dict) : Dict :=
  let fetched := fetch_full_article web ((a.lookup "link").getD "")
  [("From", ""),
   ("Subject", (a.lookup "title").getD ""),
   ("Message", fetched.1),
   ("Reply", ""),
   ("Timestamp", now),
   ("Expected Action", ""),
   ("ImageURL", fetched.2),
   ("Subtitle", (a.lookup "summary").getD "")]

def missingLinkMsg (url : String) : String :=
  "Error: Article from " ++ url ++ " is missing a link."

/-- The `for article in articles` loop of `collect_articles`. -/
def collectLoop (web : Web) (now url : String) : List Dict → List Dict × List String
  | [] => ([], [])
  | a :: rest =>
    let acc := collectLoop web now url rest
    if hasLink a then (mkRecord web now a :: acc.1, acc.2)
    else (acc.1, missingLinkMsg url :: acc.2)

/-- `collect_articles(rss_url, num_articles)`. -/
def collect_articles (parse : Feeds) (web : Web) (now url : String) (num : Nat) :
    List Dict × List String :=
  let fetched := fetch_rss_feed parse url num
  let looped := collectLoop web now url fetched.1
  (looped.1, fetched.2 ++ looped.2)

/-! ## Batch mode: persona rows -/

/-- One row of the uploaded persona spreadsheet. `none` stands for a value
whose column is missing (so subscripting raises KeyError); for `tags` it
also covers a NaN cell, since the code guards both together. -/
structure PersonaRow where
  name : Option String
  image : Option String
  tags : Option String

/-- Python `s.startswith(pre)`. -/
def pyStartsWith (s pre : String) : Bool := pre.data.isPrefixOf s.data

/-- Python `s.split(',')` on the underlying characters: split at every
comma, no trimming, `""` yields `[""]`. -/
def splitCommaChars : List Char → List (List Char)
  | [] => [[]]
  | c :: cs =>
    if c = ',' then [] :: splitCommaChars cs
    else
      match splitCommaChars cs with
      | [] => [[c]]
      | t :: ts => (c :: t) :: ts

/-- Python `s.split(',')`. -/
def pySplitComma (s : String) : List String := (splitCommaChars s.data).map String.mk

/-- `next((tag for tag in tags if tag.startswith('http')), None)` over the
comma-split Tags value: raw split, no trimming, prefix test only. -/
def find_rss_url (tags : String) : Option String :=
  (pySplitComma tags).find? (fun t => pyStartsWith t "http")

/-- `row[col]`: KeyError when the column is absent. -/
def getCol (v : Option String) (col : String) : Except String String :=
  match v with
  | some s => Except.ok s
  | none => Except.error ("KeyError: " ++ col)

/-- Python dict assignment `d[k] = v`: update in place, preserving key
order; appends when the key is new. -/
def setKey (d : Dict) (k v : String) : Dict :=
  if (d.lookup k).isSome then d.map (fun p => if p.1 = k then (k, v) else p)
  else d ++ [(k, v)]

/-- The per-article stamping `article['From'] = row['Name'];
article['ImageURL'] = row['Image']`, with their KeyErrors. -/
def stampRecord (row : PersonaRow) (rec : Dict) : Except String Dict := do
  let nm ← getCol row.name "Name"
  let img ← getCol row.image "Image"
  Except.ok (setKey (setKey rec "From" nm) "ImageURL" img)

def skipRowMsg : String := "Skipping row with missing or invalid Tags"

def noUrlMsg (nm : String) : String := "No valid URL found in Tags for row: " ++ nm

def fetchingMsg (url : String) : String := "Fetching articles from: " ++ url

/-- The row loop of `process_persona_file`. An uncaught exception (there
is no try/except in this function) is the `Except.error` case and aborts
the whole batch. Returns (records, diagnostics). -/
def processRows (parse : Feeds) (web : Web) (now : String) (num : Nat) :
    List PersonaRow → Except String (List Dict × List String)
  | [] => Except.ok ([], [])
  | row :: rest =>
    match row.tags with
    | none => do
      let acc ← processRows parse web now num rest
      Except.ok (acc.1, skipRowMsg :: acc.2)
    | some tags =>
      match find_rss_url tags with
      | none => do
        let nm ← getCol row.name "Name"
        let acc ← processRows parse web now num rest
        Except.ok (acc.1, noUrlMsg nm :: acc.2)
      | some url => do
        let collected := collect_articles parse web now url num
        let stamped ← collected.1.mapM (stampRecord row)
        let acc ← processRows parse web now num rest
        Except.ok (stamped ++ acc.1, fetchingMsg url :: (collected.2 ++ acc.2))

/-- `process_persona_file(uploaded_file, num_articles)` after the upload
has been read into rows. -/
def process_persona_file (parse : Feeds) (web : Web) (now : String) (num : Nat)
    (rows : List PersonaRow) : Except String (List Dict × List String) :=
  processRows parse web now num rows

/-! ## Export -/

/-- The spreadsheet produced by `save_to_excel`: a single sheet with a
header row and one row of cells per record (`none` is pandas NaN). -/
structure Table where
  sheet : String
  header : List String
  rows : List (List (Option String))

/-- How `pd.DataFrame(list_of_dicts)` accumulates columns: first
appearance order across the dicts. -/
def addCols (acc : List String) (d : Dict) : List String :=
  d.foldl (fun a p => if a.contains p.1 then a else a ++ [p.1]) acc

def dfColumns (ds : List Dict) : List String := ds.foldl addCols []

/-- `save_to_excel(articles)`: one sheet named Articles, columns in
DataFrame order, one row per article dict, no filtering or reordering. -/
def save_to_excel (articles : List Dict) : Table :=
  let cols := dfColumns articles
  { sheet := "Articles",
    header := cols,
    rows := articles.map (fun a => cols.map (fun c => a.lookup c)) }

/-! ## Spec-side definitions (written from the spec text, for comparison) -/

/-- Modelled from the spec: the claimed feed-level image priority
media-content > enclosure > explicit image > empty string. The source
never implements this; it exists only to state claim C6. -/
def feed_image_priority (e : RawEntry) : String :=
  (e.media_content.orElse (fun _ => e.enclosure.orElse fun _ => e.image)).getD ""

/-- From the spec: the `src` of the first `img` element anywhere in the
document, empty when there is none (or no `src`). -/
def firstImgSrcSpec (doc : Doc) : String :=
  match (findAllTagList "img" doc).head? with
  | none => ""
  | some img => (attrOf img "src").getD ""

mutual

/-- From the spec: the text of a node with `script`/`style` subtrees
stripped. -/
def specText : Html → String
  | .text s => s
  | .elem t _ cs => if t = "script" || t = "style" then "" else specTextList cs

def specTextList : List Html → String
  | [] => ""
  | c :: cs => specText c ++ specTextList cs

end

mutual

/-- From the spec: the stripped text contents of the `<p>` elements, in
document order, `script`/`style` subtrees excluded from the traversal. -/
def specPTexts : Html → List String
  | .text _ => []
  | .elem t a cs =>
    if t = "script" || t = "style" then []
    else (if t = "p" then [specText (.elem t a cs)] else []) ++ specPTextsList cs

def specPTextsList : List Html → List String
  | [] => []
  | c :: cs => specPTexts c ++ specPTextsList cs

end

/-- From the spec: the HTML Reducer output, paragraph policy. -/
def html_reducer_spec (doc : Doc) : String :=
  String.intercalate "\n\n" (specPTextsList doc)

/-! ## Concrete test fixtures -/

/-- A feed entry with every basic field present. -/
def sampleEntry : RawEntry :=
  ⟨some "T1", some "http://a/1", some "S1", some "P1", none, none, none⟩

/-- A feed entry with no link. -/
def nolinkEntry : RawEntry :=
  ⟨some "T2", none, some "S2", none, none, none, none⟩

/-- A feed entry carrying all three feed-level image carriers. -/
def mediaEntry : RawEntry :=
  ⟨some "T", some "http://a", some "S", some "P",
   some "http://m/img.png", some "http://e/img.png", some "http://i/img.png"⟩

/-- A feed environment serving a fixed two-entry feed everywhere. -/
def sampleFeeds : Feeds := fun _ => Except.ok [sampleEntry, nolinkEntry]

/-- A feed environment whose parse always fails. -/
def errorFeeds : Feeds := fun _ => Except.error "boom"

/-- An article page with one paragraph and one image. -/
def pageDoc : Doc :=
  [Html.elem "html" []
    [Html.elem "p" [] [Html.text "hello"],
     Html.elem "img" [("src", "http://x/y.png")] []]]

/-- A network serving `pageDoc` with status 200 everywhere. -/
def sampleWeb : Web := fun _ => HttpResult.ok 200 pageDoc

/-- The persona feed serving one linked entry everywhere. -/
def linkedFeeds : Feeds := fun _ => Except.ok [sampleEntry]

/-- A persona row whose spreadsheet has no Name column. -/
def rowNoName : PersonaRow := ⟨none, some "persona.png", some "http://feed"⟩

/-- A fully valid persona row. -/
def rowGood : PersonaRow := ⟨some "Bob", some "persona.png", some "http://feed"⟩

/-- A persona row whose spreadsheet has no Image column. -/
def rowNoImage : PersonaRow := ⟨some "Bob", none, some "http://feed"⟩

/-- The batch-mode export schema, in record insertion order. -/
def batchCols : List String :=
  ["From", "Subject", "Message", "Reply", "Timestamp", "Expected Action",
   "ImageURL", "Subtitle"]

/-- The outcomes of `requests.get` plus `raise_for_status` that reach the
exception handler: a transport error, or a 4xx/5xx status. -/
def isHttpFailure (r : HttpResult) : Bool :=
  match r with
  | .err _ => true
  | .ok st _ => raisesForStatus st

/-- A network that always fails at transport level. -/
def downWeb : Web := fun _ => HttpResult.err "connection refused"

/-- A network that returns a final status of 300 with a body. -/
def web300 : Web := fun _ => HttpResult.ok 300 [Html.elem "p" [] [Html.text "hi"]]

/-! ## Claims -/

/-- C3: `fetch_rss_feed` returns the normalizations of the first
`min(limit, length)` entries, in feed-document order, never padded and
never re-sorted. -/
theorem c3_take_limit (parse : Feeds) (url : String) (num : Nat)
    (entries : List RawEntry) (h : parse url = Except.ok entries) :
    (fetch_rss_feed parse url num).1 = (entries.take num).map normalizeEntry ∧
    (fetch_rss_feed parse url num).1.length = min num entries.length := by
  simp [fetch_rss_feed, h]

theorem c3_take_limit_witness :
    (fetch_rss_feed sampleFeeds "http://feed" 5).1 =
      ([sampleEntry, nolinkEntry].take 5).map normalizeEntry ∧
    (fetch_rss_feed sampleFeeds "http://feed" 5).1.length =
      min 5 [sampleEntry, nolinkEntry].length :=
  c3_take_limit sampleFeeds "http://feed" 5 [sampleEntry, nolinkEntry] rfl

/-- C5: when the feed parse fails, `fetch_rss_feed` does not raise: it
reports one diagnostic and returns the empty list, the same value a feed
with zero entries produces. -/
theorem c5_parse_failure (parse : Feeds) (url e : String) (num : Nat)
    (h : parse url = Except.error e) :
    fetch_rss_feed parse url num = ([], [parseErrMsg url e]) ∧
    (fetch_rss_feed parse url num).1 =
      (fetch_rss_feed (fun _ => Except.ok []) url num).1 := by
  simp [fetch_rss_feed, h]

theorem c5_parse_failure_witness :
    fetch_rss_feed errorFeeds "http://bad" 5 = ([], [parseErrMsg "http://bad" "boom"]) ∧
    (fetch_rss_feed errorFeeds "http://bad" 5).1 =
      (fetch_rss_feed (fun _ => Except.ok []) "http://bad" 5).1 :=
  c5_parse_failure errorFeeds "http://bad" "boom" 5 rfl

/-- The collection loop keeps exactly the entries with a non-empty link
and reports the others. -/
theorem collectLoop_eq (web : Web) (now url : String) (arts : List Dict) :
    collectLoop web now url arts =
      ((arts.filter fun a => hasLink a).map (mkRecord web now),
       (arts.filter fun a => !hasLink a).map fun _ => missingLinkMsg url) := by
  induction arts with
  | nil => rfl
  | cons a rest ih =>
    cases h : hasLink a <;> simp [collectLoop, ih, h]

/-- C4: `collect_articles` produces exactly one ArticleRecord per entry
with a non-empty link, in order; every entry with a missing or empty link
yields a diagnostic and no record; a raw entry with a missing link
normalizes to an empty link. -/
theorem c4_collect_filter (parse : Feeds) (web : Web) (now url : String)
    (num : Nat) (entries : List RawEntry) (h : parse url = Except.ok entries) :
    (collect_articles parse web now url num).1 =
      (((entries.take num).map normalizeEntry).filter fun a => hasLink a).map
        (mkRecord web now) ∧
    (collect_articles parse web now url num).2 =
      (((entries.take num).map normalizeEntry).filter fun a => !hasLink a).map
        (fun _ => missingLinkMsg url) ∧
    (∀ e : RawEntry, hasLink (normalizeEntry e) = (e.link.getD "" != "")) := by
  refine ⟨?_, ?_, ?_⟩
  · simp [collect_articles, fetch_rss_feed, h, collectLoop_eq]
  · simp [collect_articles, fetch_rss_feed, h, collectLoop_eq]
  · intro e
    simp [hasLink, normalizeEntry, List.lookup]

theorem c4_collect_filter_witness :
    (collect_articles sampleFeeds sampleWeb "now" "http://feed" 5).1 =
      ((([sampleEntry, nolinkEntry].take 5).map normalizeEntry).filter
        fun a => hasLink a).map (mkRecord sampleWeb "now") ∧
    (collect_articles sampleFeeds sampleWeb "now" "http://feed" 5).2 =
      ((([sampleEntry, nolinkEntry].take 5).map normalizeEntry).filter
        fun a => !hasLink a).map (fun _ => missingLinkMsg "http://feed") ∧
    (∀ e : RawEntry, hasLink (normalizeEntry e) = (e.link.getD "" != "")) :=
  c4_collect_filter sampleFeeds sampleWeb "now" "http://feed" 5
    [sampleEntry, nolinkEntry] rfl

/-- C6 counterexample: an entry carrying a media-content attachment (and
an enclosure and an explicit image) still yields a parsed record with no
`image_url` at all, contradicting the claimed priority resolution. -/
theorem c6_counterexample :
    (normalizeEntry mediaEntry).lookup "image_url" = none ∧
    feed_image_priority mediaEntry = "http://m/img.png" ∧
    (normalizeEntry mediaEntry).lookup "image_url" ≠
      some (feed_image_priority mediaEntry) := by
  refine ⟨by decide, by decide, by decide⟩

/-- C6 amended: the Feed Parser extracts no image at all: every record it
returns has exactly the keys title, link, summary, published, and no
`image_url` key. -/
theorem c6_amended_no_feed_image (parse : Feeds) (url : String) (num : Nat)
    (entries : List RawEntry) (r : Dict) (h : parse url = Except.ok entries)
    (hr : r ∈ (fetch_rss_feed parse url num).1) :
    r.map Prod.fst = ["title", "link", "summary", "published"] ∧
    r.lookup "image_url" = none := by
  simp only [fetch_rss_feed, h] at hr
  simp only [List.mem_map] at hr
  obtain ⟨e, -, rfl⟩ := hr
  simp [normalizeEntry, List.lookup]

theorem c6_amended_no_feed_image_witness :
    (normalizeEntry sampleEntry).map Prod.fst =
      ["title", "link", "summary", "published"] ∧
    (normalizeEntry sampleEntry).lookup "image_url" = none :=
  c6_amended_no_feed_image sampleFeeds "http://feed" 5 [sampleEntry, nolinkEntry]
    (normalizeEntry sampleEntry) rfl (by decide)

/-- C10: Tags tokens are the raw comma-split pieces, untrimmed, matched
only by the prefix test `startswith("http")`: the space after the comma in
`"Name, https://example.com/rss"` defeats the match and the row is
skipped, while any token merely starting with `http` is accepted. -/
theorem c10_raw_token_matching :
    find_rss_url "Name, https://example.com/rss" = none ∧
    find_rss_url "Name,httpgarbage" = some "httpgarbage" ∧
    (∀ tags t, t ∈ pySplitComma tags → pyStartsWith t "http" = true →
      (find_rss_url tags).isSome = true) ∧
    processRows errorFeeds (fun _ => HttpResult.err "x") "now" 5
      [⟨some "Bob", some "img.png", some "Name, https://example.com/rss"⟩] =
      Except.ok ([], [noUrlMsg "Bob"]) := by
  refine ⟨by decide, by decide, ?_, by rfl⟩
  intro tags t ht hp
  cases hf : find_rss_url tags with
  | some u => rfl
  | none =>
    have := List.find?_eq_none.mp hf t ht
    simp [hp] at this

/-- The sentinel message always starts with the sentinel prefix. -/
theorem fetchErrMsg_starts (d : String) :
    pyStartsWith (fetchErrMsg d) fetchErrPrefix = true := by
  simp only [pyStartsWith, fetchErrMsg, String.data_append,
    List.isPrefixOf_iff_prefix, List.append_assoc]
  exact List.prefix_append _ _

/-- C1 counterexample: a final HTTP status of 300 is non-2xx, yet
`raise_for_status` does not raise for it, so `fetch_full_article` proceeds
to extract the body instead of returning the sentinel pair. -/
theorem c1_counterexample :
    fetch_full_article web300 "http://x" = ("hi", "") ∧
    pyStartsWith "hi" fetchErrPrefix = false := by
  constructor
  · simp [fetch_full_article, web300, raisesForStatus, clean_html, stripSSList,
      findAllTagList, findAllTag, getText, getTextList]
    rfl
  · decide

/-- C1 amended: on a transport error or a 4xx/5xx status (the statuses
`raise_for_status` raises for), `fetch_full_article` returns a text
starting with the sentinel prefix and an empty image URL, and never
raises; other non-2xx final statuses are processed as success. -/
theorem c1_amended_sentinel (web : Web) (link : String)
    (h : isHttpFailure (web link) = true) :
    pyStartsWith (fetch_full_article web link).1 fetchErrPrefix = true ∧
    (fetch_full_article web link).2 = "" := by
  cases hw : web link with
  | err e => simp [fetch_full_article, hw, fetchErrMsg_starts]
  | ok st doc =>
    have hrs : raisesForStatus st = true := by simpa [isHttpFailure, hw] using h
    simp [fetch_full_article, hw, hrs, fetchErrMsg_starts]

theorem c1_amended_sentinel_witness :
    isHttpFailure (downWeb "http://x") = true ∧
    pyStartsWith (fetch_full_article downWeb "http://x").1 fetchErrPrefix = true ∧
    (fetch_full_article downWeb "http://x").2 = "" :=
  ⟨rfl, (c1_amended_sentinel downWeb "http://x" rfl).1,
    (c1_amended_sentinel downWeb "http://x" rfl).2⟩

/-- C7: on a successfully fetched page (2xx), the image URL returned by
`fetch_full_article` is the `src` of the first `img` element anywhere in
the document, and empty when there is no `img` (or no `src`). -/
theorem c7_first_img_src (web : Web) (link : String) (status : Nat) (doc : Doc)
    (h : web link = HttpResult.ok status doc) (h2 : 200 ≤ status)
    (h3 : status < 300) :
    (fetch_full_article web link).2 = firstImgSrcSpec doc := by
  have hrs : raisesForStatus status = false := by
    simp only [raisesForStatus, Bool.and_eq_false_iff, decide_eq_false_iff_not]
    omega
  cases himg : (findAllTagList "img" doc).head? with
  | none => simp [fetch_full_article, h, hrs, firstImgSrcSpec, himg]
  | some img =>
    cases hsrc : attrOf img "src" with
    | none => simp [fetch_full_article, h, hrs, firstImgSrcSpec, himg, hsrc]
    | some src => simp [fetch_full_article, h, hrs, firstImgSrcSpec, himg, hsrc]

theorem c7_first_img_src_witness :
    sampleWeb "http://a/1" = HttpResult.ok 200 pageDoc ∧ 200 ≤ 200 ∧ 200 < 300 ∧
    (fetch_full_article sampleWeb "http://a/1").2 = firstImgSrcSpec pageDoc :=
  ⟨rfl, by decide, by decide,
    c7_first_img_src sampleWeb "http://a/1" 200 pageDoc rfl (by decide) (by decide)⟩

theorem c10_raw_token_matching_witness :
    ("httpxyz" ∈ pySplitComma "a,httpxyz") ∧
    pyStartsWith "httpxyz" "http" = true ∧
    (find_rss_url "a,httpxyz").isSome = true :=
  ⟨by decide, by decide,
    c10_raw_token_matching.2.2.1 "a,httpxyz" "httpxyz" (by decide) (by decide)⟩

/-- `List.find?` returns the first match: everything before it fails the
predicate. -/
theorem find?_first_match {α : Type} (p : α → Bool) (l : List α) (b : α)
    (h : l.find? p = some b) :
    ∃ pre post, l = pre ++ b :: post ∧ ∀ v ∈ pre, p v = false := by
  induction l with
  | nil => simp at h
  | cons a as ih =>
    by_cases ha : p a = true
    · rw [List.find?_cons_of_pos _ ha] at h
      obtain rfl : a = b := by simpa using h
      exact ⟨[], as, rfl, by simp⟩
    · rw [List.find?_cons_of_neg _ (by simpa using ha)] at h
      obtain ⟨pre, post, rfl, hp⟩ := ih h
      refine ⟨a :: pre, post, rfl, ?_⟩
      intro v hv
      rcases List.mem_cons.mp hv with rfl | hv
      · simpa using ha
      · exact hp v hv

/-- C8 counterexample: a row whose spreadsheet lacks the Name column is
not skipped: stamping its first fetched article raises KeyError, which
nothing catches, so the whole batch (including the later valid row)
aborts; the same rows minus the malformed one succeed. -/
theorem c8_counterexample :
    process_persona_file linkedFeeds sampleWeb "now" 5 [rowNoName, rowGood] =
      Except.error "KeyError: Name" ∧
    (process_persona_file linkedFeeds sampleWeb "now" 5 [rowGood]).isOk = true :=
  ⟨rfl, rfl⟩

/-- C8 amended: a row with missing Tags, or with no comma-split token
starting with `http`, is skipped with a diagnostic and the batch
continues (the no-URL diagnostic itself needs the Name column); the feed
URL of a matched row is the first raw comma-split token starting with
`http`; but a row whose Name or Image column is missing raises KeyError
at stamping time (or, for Name, already when the no-URL diagnostic is
formatted) and aborts the whole batch. -/
theorem c8_amended_row_handling (parse : Feeds) (web : Web) (now : String)
    (num : Nat) (row : PersonaRow) (rest : List PersonaRow) :
    (row.tags = none →
      processRows parse web now num (row :: rest) =
        (processRows parse web now num rest).map fun acc =>
          (acc.1, skipRowMsg :: acc.2)) ∧
    (∀ t nm, row.tags = some t → find_rss_url t = none → row.name = some nm →
      processRows parse web now num (row :: rest) =
        (processRows parse web now num rest).map fun acc =>
          (acc.1, noUrlMsg nm :: acc.2)) ∧
    (∀ t url, row.tags = some t → find_rss_url t = some url →
      ∃ pre post, pySplitComma t = pre ++ url :: post ∧
        (∀ v ∈ pre, pyStartsWith v "http" = false) ∧
        pyStartsWith url "http" = true) ∧
    (∀ t url r rs, row.tags = some t → find_rss_url t = some url →
      row.name = none →
      (collect_articles parse web now url num).1 = r :: rs →
      processRows parse web now num (row :: rest) =
        Except.error "KeyError: Name") ∧
    (∀ t, row.tags = some t → find_rss_url t = none → row.name = none →
      processRows parse web now num (row :: rest) =
        Except.error "KeyError: Name") ∧
    (∀ t url r rs nm, row.tags = some t → find_rss_url t = some url →
      row.name = some nm → row.image = none →
      (collect_articles parse web now url num).1 = r :: rs →
      processRows parse web now num (row :: rest) =
        Except.error "KeyError: Image") := by
  refine ⟨?_, ?_, ?_, ?_, ?_, ?_⟩
  · intro h
    cases hres : processRows parse web now num rest <;>
      simp [processRows, h, hres, Except.map, Bind.bind, Except.bind]
  · intro t nm ht hf hn
    cases hres : processRows parse web now num rest <;>
      simp [processRows, ht, hf, hn, getCol, hres, Except.map, Bind.bind,
        Except.bind]
  · intro t url ht hf
    have hf' : List.find? (fun s => pyStartsWith s "http") (pySplitComma t) =
        some url := hf
    obtain ⟨pre, post, heq, hpre⟩ := find?_first_match _ _ _ hf'
    have hp := List.find?_some hf'
    exact ⟨pre, post, heq, hpre, by simpa using hp⟩
  · intro t url r rs ht hf hn hcol
    simp [processRows, ht, hf, hcol, List.mapM.loop, stampRecord, getCol, hn,
      Bind.bind, Except.bind]
  · intro t ht hf hn
    simp [processRows, ht, hf, getCol, hn, Bind.bind, Except.bind]
  · intro t url r rs nm ht hf hn himg hcol
    simp [processRows, ht, hf, hcol, List.mapM.loop, stampRecord, getCol, hn,
      himg, Bind.bind, Except.bind]

theorem c8_amended_row_handling_witness :
    (processRows errorFeeds downWeb "now" 5 [⟨some "A", some "i.png", none⟩] =
      (processRows errorFeeds downWeb "now" 5 []).map fun acc =>
        (acc.1, skipRowMsg :: acc.2)) ∧
    (processRows errorFeeds downWeb "now" 5 [⟨some "Bob", some "i.png", some "nope"⟩] =
      (processRows errorFeeds downWeb "now" 5 []).map fun acc =>
        (acc.1, noUrlMsg "Bob" :: acc.2)) ∧
    (∃ pre post, pySplitComma "x,httpy" = pre ++ "httpy" :: post ∧
      (∀ v ∈ pre, pyStartsWith v "http" = false) ∧
      pyStartsWith "httpy" "http" = true) ∧
    (processRows linkedFeeds sampleWeb "now" 5 [rowNoName] =
      Except.error "KeyError: Name") ∧
    (processRows errorFeeds downWeb "now" 5 [⟨none, some "i.png", some "nope"⟩] =
      Except.error "KeyError: Name") ∧
    (processRows linkedFeeds sampleWeb "now" 5 [rowNoImage] =
      Except.error "KeyError: Image") :=
  ⟨(c8_amended_row_handling errorFeeds downWeb "now" 5
      ⟨some "A", some "i.png", none⟩ []).1 rfl,
   (c8_amended_row_handling errorFeeds downWeb "now" 5
      ⟨some "Bob", some "i.png", some "nope"⟩ []).2.1 "nope" "Bob" rfl (by decide) rfl,
   (c8_amended_row_handling errorFeeds downWeb "now" 5
      ⟨some "Bob", some "i.png", some "x,httpy"⟩ []).2.2.1 "x,httpy" "httpy" rfl
      (by decide),
   (c8_amended_row_handling linkedFeeds sampleWeb "now" 5 rowNoName []).2.2.2.1
      "http://feed" "http://feed"
      (mkRecord sampleWeb "now" (normalizeEntry sampleEntry)) [] rfl rfl rfl rfl,
   (c8_amended_row_handling errorFeeds downWeb "now" 5
      ⟨none, some "i.png", some "nope"⟩ []).2.2.2.2.1 "nope" rfl (by decide) rfl,
   (c8_amended_row_handling linkedFeeds sampleWeb "now" 5 rowNoImage []).2.2.2.2.2
      "http://feed" "http://feed"
      (mkRecord sampleWeb "now" (normalizeEntry sampleEntry)) [] "Bob" rfl rfl rfl
      rfl rfl⟩

/-- `addCols` depends only on the keys of the dict. -/
theorem addCols_keys (acc : List String) (d : Dict) :
    addCols acc d =
      (d.map Prod.fst).foldl (fun a k => if a.contains k then a else a ++ [k]) acc := by
  simp [addCols, List.foldl_map]

/-- When every record has exactly the batch schema keys, the DataFrame
column order is that schema. -/
theorem dfColumns_batch (articles : List Dict)
    (hkeys : ∀ r ∈ articles, r.map Prod.fst = batchCols) (hne : articles ≠ []) :
    dfColumns articles = batchCols := by
  obtain ⟨a, as, rfl⟩ := List.exists_cons_of_ne_nil hne
  have h1 : addCols [] a = batchCols := by
    rw [addCols_keys, hkeys a (by simp)]
    decide
  have h2 : ∀ ds : List Dict, (∀ r ∈ ds, r.map Prod.fst = batchCols) →
      ds.foldl addCols batchCols = batchCols := by
    intro ds hds
    induction ds with
    | nil => rfl
    | cons d ds ih =>
      have hd : addCols batchCols d = batchCols := by
        rw [addCols_keys, hds d (by simp)]
        decide
      simp only [List.foldl_cons, hd]
      exact ih fun r hr => hds r (by simp [hr])
  show List.foldl addCols [] (a :: as) = batchCols
  rw [List.foldl_cons, h1]
  exact h2 as fun r hr => hkeys r (by simp [hr])

/-- C9 counterexample: the single-mode export (raw feed dicts straight
from `fetch_rss_feed` into `save_to_excel`, as `main` does) has columns
title, link, summary, published, which is neither the full batch schema
nor the claimed reduced single-mode schema. -/
theorem c9_counterexample :
    (save_to_excel (fetch_rss_feed sampleFeeds "http://feed" 5).1).header =
      ["title", "link", "summary", "published"] ∧
    (save_to_excel (fetch_rss_feed sampleFeeds "http://feed" 5).1).header ≠
      batchCols ∧
    (save_to_excel (fetch_rss_feed sampleFeeds "http://feed" 5).1).header ≠
      ["Subject", "Message", "Reply", "Timestamp", "Expected Action",
       "ImageURL", "Subtitle"] := by
  refine ⟨by decide, by decide, by decide⟩

/-- C9 amended: `save_to_excel` writes a single sheet named Articles with
one row per record, in order, no filtering; for batch-mode records (keys
exactly From, Subject, Message, Reply, Timestamp, Expected Action,
ImageURL, Subtitle) the column order is that schema; the single-mode
export instead carries the raw feed-entry columns. -/
theorem c9_amended_export (articles : List Dict)
    (hkeys : ∀ r ∈ articles, r.map Prod.fst = batchCols) (hne : articles ≠ []) :
    (save_to_excel articles).sheet = "Articles" ∧
    (save_to_excel articles).header = batchCols ∧
    (save_to_excel articles).rows =
      articles.map fun a => batchCols.map fun c => a.lookup c := by
  have hdf := dfColumns_batch articles hkeys hne
  refine ⟨rfl, hdf, ?_⟩
  simp [save_to_excel, hdf]

theorem c9_amended_export_witness :
    (save_to_excel [mkRecord sampleWeb "now" (normalizeEntry sampleEntry)]).sheet =
      "Articles" ∧
    (save_to_excel [mkRecord sampleWeb "now" (normalizeEntry sampleEntry)]).header =
      batchCols ∧
    (save_to_excel [mkRecord sampleWeb "now" (normalizeEntry sampleEntry)]).rows =
      [mkRecord sampleWeb "now" (normalizeEntry sampleEntry)].map fun a =>
        batchCols.map fun c => a.lookup c :=
  c9_amended_export [mkRecord sampleWeb "now" (normalizeEntry sampleEntry)]
    (by
      intro r hr
      rw [List.mem_singleton] at hr
      subst hr
      rfl)
    (by simp)

/-- Stripping `script`/`style` first and then taking all text equals the
spec-side text that skips those subtrees during traversal. -/
theorem getTextList_strip : ∀ cs : List Html,
    getTextList (stripSSList cs) = specTextList cs
  | [] => by simp [stripSSList, getTextList, specTextList]
  | .text s :: cs => by
    simp [stripSSList, getTextList, getText, specTextList, specText,
      getTextList_strip cs]
  | .elem t a gs :: cs => by
    by_cases h : t = "script" || t = "style"
    · simp [stripSSList, h, specTextList, specText, getTextList_strip cs]
    · simp [stripSSList, h, getTextList, getText, specTextList, specText,
        getTextList_strip cs, getTextList_strip gs]

/-- The texts of the paragraph elements surviving the strip are exactly
the spec-side paragraph texts, in document order. -/
theorem pMap_strip : ∀ cs : List Html,
    (findAllTagList "p" (stripSSList cs)).map getText = specPTextsList cs
  | [] => by simp [stripSSList, findAllTagList, specPTextsList]
  | .text s :: cs => by
    simp [stripSSList, findAllTagList, findAllTag, specPTextsList, specPTexts,
      pMap_strip cs]
  | .elem t a gs :: cs => by
    by_cases h : t = "script" || t = "style"
    · simp [stripSSList, h, specPTextsList, specPTexts, pMap_strip cs]
    · by_cases hp : t = "p" <;>
        simp [stripSSList, h, hp, findAllTagList, findAllTag, specPTextsList,
          specPTexts, getText, specText, getTextList_strip gs, pMap_strip cs,
          pMap_strip gs]

/-- Stripping cannot create paragraph elements. -/
theorem noP_strip : ∀ cs : List Html,
    findAllTagList "p" cs = [] → findAllTagList "p" (stripSSList cs) = []
  | [] => fun _ => by simp [stripSSList, findAllTagList]
  | .text s :: cs => fun h => by
    simp only [findAllTagList, findAllTag, List.nil_append] at h
    simp [stripSSList, findAllTagList, findAllTag, noP_strip cs h]
  | .elem t a gs :: cs => fun h => by
    by_cases hp : t = "p"
    · simp [findAllTagList, findAllTag, hp] at h
    · by_cases hss : t = "script" || t = "style"
      · simp only [findAllTagList, findAllTag, hp, if_false,
          List.append_eq_nil, List.nil_append] at h
        simp [stripSSList, hss, noP_strip cs h.2]
      · simp only [findAllTagList, findAllTag, hp, if_false,
          List.append_eq_nil, List.nil_append] at h
        simp [stripSSList, hss, findAllTagList, findAllTag, hp,
          List.append_eq_nil, noP_strip gs h.1, noP_strip cs h.2]

/-- C2: `clean_html` first removes `script`/`style` subtrees, then joins
the text of the `<p>` elements in document order with a blank-line
separator (the spec-side reducer), and an input with no `<p>` element
yields the empty string. -/
theorem c2_html_reducer (doc : Doc) :
    clean_html doc = html_reducer_spec doc ∧
    (findAllTagList "p" doc = [] → clean_html doc = "") := by
  refine ⟨by simp [clean_html, html_reducer_spec, pMap_strip doc], fun h => ?_⟩
  have h2 := noP_strip doc h
  simp [clean_html, h2]
  rfl

theorem c2_html_reducer_witness :
    clean_html [Html.elem "div" [] [Html.text "x"]] =
      html_reducer_spec [Html.elem "div" [] [Html.text "x"]] ∧
    findAllTagList "p" [Html.elem "div" [] [Html.text "x"]] = [] ∧
    clean_html [Html.elem "div" [] [Html.text "x"]] = "" :=
  ⟨(c2_html_reducer [Html.elem "div" [] [Html.text "x"]]).1,
   by simp [findAllTagList, findAllTag],
   (c2_html_reducer [Html.elem "div" [] [Html.text "x"]]).2
     (by simp [findAllTagList, findAllTag])⟩

end RssReader
